import Mathlib

/-!
A shallow embedding of functorch's `BatchRulesRandomness.cpp` (the vmap batching
rules for random-number-generating operators) together with proofs about the
behaviour of those rules.

Modelling conventions:
* Machine integers (`int64_t` sizes, dimension indices) are `Nat`/`Int`.
* The real random operators (`at::randn`, `at::randperm`, ...) are external
  collaborators; each rule is parametrised by the operator `Func` it wraps,
  modelled as a state-passing function on an abstract generator state `γ`:
  invoking the operator consumes and returns the generator state, so the
  number and order of real draws is visible in the final state.
* `TORCH_CHECK` failures are modelled with `Except`: a rule returns either
  `Except.error e` (the call aborted, no tensor produced) or `Except.ok`.
* The ambient world threaded through every rule carries the active dynamic
  layer and the generator state, so frame properties (the layer is only read,
  never written) are statable.
-/

namespace Functorch

/-- The randomness mode carried by a vmap dynamic layer (`RandomnessType`). -/
inductive RandomnessType where
  | Error
  | Same
  | Different
  deriving DecidableEq, Repr

/-- The two user-facing errors this translation unit can raise via `TORCH_CHECK`:
the randomness-mode error from `check_randomness` and the unsupported in-place
randomness error from `random_inplace_batching_rule`. -/
inductive VmapError where
  | RandomnessModeError
  | UnsupportedInplaceRandomnessError
  deriving DecidableEq, Repr

/-- The active vmap dynamic layer, as observed through `maybeCurrentDynamicLayer()`:
`batchSize()`, `layerId()` and `randomness()`. -/
structure DynamicLayer where
  batchSize : Nat
  layerId : Nat
  randomness : RandomnessType
  deriving DecidableEq, Repr

/-- A plain (unbatched) tensor: a shape and row-major flattened contents. -/
structure Tensor where
  shape : List Nat
  data : List Int
  deriving DecidableEq, Repr

/-- Number of elements of a shape (product of the dimension sizes). -/
def numel (shape : List Nat) : Nat := shape.foldr (fun a b => a * b) 1

/-- A value as returned to the dispatcher: either a plain tensor or a tensor
wrapped as batched at a dimension for a given layer. -/
inductive VTensor where
  | plain (t : Tensor)
  | batched (t : Tensor) (bdim : Nat) (level : Nat)
  deriving DecidableEq, Repr

/-- Modelled from the spec: the external batched-tensor wrapping primitive
(`makeBatched`), "wrap plain tensor + dimension index + layer id into a
Batched Result". -/
def makeBatched (t : Tensor) (bdim : Nat) (level : Nat) : VTensor :=
  VTensor.batched t bdim level

/-- An in-place rule's argument `self`: the physical tensor together with the
optional batch-dimension annotation it carries at the current level
(the pair produced by `unwrapTensorAtLevel`). -/
structure WrappedTensor where
  value : Tensor
  bdim : Option Nat
  deriving DecidableEq, Repr

/-- The logical (batch-dims-hidden) shape reported by `self.sizes()` for a
tensor carrying an optional batch-dimension annotation. -/
def logicalShape (self : WrappedTensor) : List Nat :=
  match self.bdim with
  | none => self.value.shape
  | some d => self.value.shape.eraseIdx d

/-- Row-major multi-index of a flat offset in a tensor of the given shape. -/
def unflattenIdx : List Nat → Nat → List Nat
  | [], _ => []
  | _ :: rest, i => i / numel rest :: unflattenIdx rest (i % numel rest)

/-- Row-major flat offset of a multi-index in a tensor of the given shape. -/
def flattenIdx : List Nat → List Nat → Nat
  | [], _ => 0
  | _ :: _, [] => 0
  | _ :: rest, a :: as => a * numel rest + flattenIdx rest as

/-- Modelled from the spec: the external "move a named dimension to front
position" primitive (`moveBatchDimToFront`): with no batch dimension the
tensor is returned unchanged, otherwise dimension `d` is moved to position 0. -/
def moveBatchDimToFront (t : Tensor) : Option Nat → Tensor
  | none => t
  | some d =>
    let newShape := t.shape.getD d 0 :: t.shape.eraseIdx d
    ⟨newShape, (List.range (numel newShape)).map (fun i =>
      match unflattenIdx newShape i with
      | [] => 0
      | b :: rest => t.data.getD (flattenIdx t.shape (rest.insertIdx d b)) 0)⟩

/-- Functional rendering of an in-place mutation performed through the
moved-to-front alias of `moveBatchDimToFront`: the mutated front-batched
contents written back into the original physical layout. -/
def moveBatchDimFromFront (t : Tensor) : Option Nat → Tensor
  | none => t
  | some d =>
    let newShape := (t.shape.tail).insertIdx d (t.shape.headD 0)
    ⟨newShape, (List.range (numel newShape)).map (fun i =>
      let ix := unflattenIdx newShape i
      t.data.getD (flattenIdx t.shape (ix.getD d 0 :: ix.eraseIdx d)) 0)⟩

/-- Modelled from the spec: the external allocation primitive `at::empty`; a
fresh scratch tensor of the given shape (contents unspecified, modelled as
zeros — the rule always overwrites them with a real draw before use). -/
def empty (shape : List Nat) : Tensor :=
  ⟨shape, List.replicate (numel shape) 0⟩

/-- Modelled from the spec: the external tensor-copy primitive `copy_` as it
dispatches for a destination batched at dimension `d`: the source's contents
are copied into every slot of the destination along that batch dimension
(broadcast copy). -/
def broadcastCopy (dest : Tensor) (d : Nat) (src : Tensor) : Tensor :=
  ⟨dest.shape, (List.range (numel dest.shape)).map (fun i =>
    src.data.getD (flattenIdx src.shape ((unflattenIdx dest.shape i).eraseIdx d)) 0)⟩

/-- Modelled from the spec: the external stack-along-a-new-leading-dimension
primitive `at::stack` (on a non-empty list of equally-shaped tensors). -/
def stack (ts : List Tensor) : Tensor :=
  ⟨ts.length :: (ts.headD ⟨[], []⟩).shape, (ts.map Tensor.data).flatten⟩

/-- The slice of a tensor at index `i` along dimension 0 (flattened contents). -/
def slice0 (t : Tensor) (i : Nat) : List Int :=
  (t.data.drop (i * numel t.shape.tail)).take (numel t.shape.tail)

/-- The mutable ambient state a rule runs in: the active dynamic layer and the
abstract generator state of the real random operators. -/
structure World (γ : Type) where
  layer : DynamicLayer
  gen : γ

/-- `check_randomness` (lines 14–20): `TORCH_CHECK(randomness != Error, ...)`. -/
def check_randomness (randomness : RandomnessType) : Except VmapError Unit :=
  if randomness = RandomnessType.Error then
    Except.error VmapError.RandomnessModeError
  else
    Except.ok ()

/-- `random_batching_rule` (lines 22–36): the rule for shape-taking random
operators (`randn`, `rand`, and — through the adapters — the `randint`
family). `Func` is the real operator; `extra_args` the unchanged trailing
arguments. -/
def random_batching_rule {α γ : Type} (Func : List Nat → α → γ → Tensor × γ)
    (shape : List Nat) (extra_args : α) (w : World γ) :
    Except VmapError VTensor × World γ :=
  let maybe_layer := w.layer
  let shapeVec := maybe_layer.batchSize :: shape
  let randomness := maybe_layer.randomness
  match check_randomness randomness with
  | Except.error e => (Except.error e, w)
  | Except.ok _ =>
    if randomness = RandomnessType.Different then
      (Except.ok (makeBatched (Func shapeVec extra_args w.gen).1 0 maybe_layer.layerId),
        ⟨maybe_layer, (Func shapeVec extra_args w.gen).2⟩)
    else
      (Except.ok (VTensor.plain (Func shape extra_args w.gen).1),
        ⟨maybe_layer, (Func shape extra_args w.gen).2⟩)

/-- `random_inplace_batching_rule` (lines 38–62): the rule for the in-place
operators `random_` (and overloads) and `normal_`. `Func` is the real
in-place operator, modelled functionally as returning the filled tensor. -/
def random_inplace_batching_rule {α γ : Type} (Func : Tensor → α → γ → Tensor × γ)
    (self : WrappedTensor) (extra_args : α) (w : World γ) :
    Except VmapError WrappedTensor × World γ :=
  let maybe_layer := w.layer
  let self_value := self.value
  let self_bdim := self.bdim
  let self_value := moveBatchDimToFront self_value self_bdim
  let randomness := maybe_layer.randomness
  match check_randomness randomness with
  | Except.error e => (Except.error e, w)
  | Except.ok _ =>
    if randomness = RandomnessType.Different ∧ self_bdim = none then
      (Except.error VmapError.UnsupportedInplaceRandomnessError, w)
    else if randomness = RandomnessType.Same ∧ self_bdim ≠ none then
      let intermediate := empty (logicalShape self)
      (Except.ok ⟨broadcastCopy self.value (self_bdim.getD 0)
          (Func intermediate extra_args w.gen).1, self_bdim⟩,
        ⟨maybe_layer, (Func intermediate extra_args w.gen).2⟩)
    else
      (Except.ok ⟨moveBatchDimFromFront (Func self_value extra_args w.gen).1 self_bdim,
          self_bdim⟩,
        ⟨maybe_layer, (Func self_value extra_args w.gen).2⟩)

/-- The sequential loop of `randperm_batching_rule` (lines 72–77): `k` calls of
the real operator in left-to-right order, each observing the generator state
advanced by the previous call. -/
def randpermLoop {α γ : Type} (Func : Nat → α → γ → Tensor × γ)
    (n : Nat) (extra_args : α) : Nat → γ → List Tensor × γ
  | 0, g => ([], g)
  | k + 1, g =>
    let r := Func n extra_args g
    let rest := randpermLoop Func n extra_args k r.2
    (r.1 :: rest.1, rest.2)

/-- `randperm_batching_rule` (lines 64–83). `stackP` is the external stack
primitive the rule hands the collected list to (`at::stack`). -/
def randperm_batching_rule {α γ : Type} (stackP : List Tensor → Tensor)
    (Func : Nat → α → γ → Tensor × γ) (n : Nat) (extra_args : α) (w : World γ) :
    Except VmapError VTensor × World γ :=
  let maybe_layer := w.layer
  let batch_size := maybe_layer.batchSize
  let randomness := maybe_layer.randomness
  match check_randomness randomness with
  | Except.error e => (Except.error e, w)
  | Except.ok _ =>
    if randomness = RandomnessType.Different then
      (Except.ok (makeBatched (stackP (randpermLoop Func n extra_args batch_size w.gen).1)
          0 maybe_layer.layerId),
        ⟨maybe_layer, (randpermLoop Func n extra_args batch_size w.gen).2⟩)
    else
      (Except.ok (VTensor.plain (Func n extra_args w.gen).1),
        ⟨maybe_layer, (Func n extra_args w.gen).2⟩)

/-- `rand_int_wrapper` (lines 95–98): adapts a bound-first operator
(`randint(high, size, ...)`) to the shape-first calling convention of
`random_batching_rule` by pure positional forwarding. -/
def rand_int_wrapper {α γ : Type} (Func : Int → List Nat → α → γ → Tensor × γ)
    (shape : List Nat) (high : Int) (extra_args : α) (g : γ) : Tensor × γ :=
  Func high shape extra_args g

/-- `RandIntBatchRuleHelper::apply` (lines 113–120): routes a
`(high, shape, ...)` call through `rand_int_wrapper` into
`random_batching_rule`, with `high` carried as the first extra argument. -/
def RandIntBatchRuleHelper.apply {α γ : Type} (Func : Int → List Nat → α → γ → Tensor × γ)
    (high : Int) (shape : List Nat) (extra_args : α) (w : World γ) :
    Except VmapError VTensor × World γ :=
  random_batching_rule (fun s p g => rand_int_wrapper Func s p.1 p.2 g)
    shape (high, extra_args) w

/-- `rand_int_low_wrapper` (lines 122–125): adapts a two-bounds-first operator
(`randint.low(low, high, size, ...)`; the C++ parameters are named `high, low`
but forward the operator's first and second scalar positionally) to the
shape-first calling convention by pure positional forwarding. -/
def rand_int_low_wrapper {α γ : Type} (Func : Int → Int → List Nat → α → γ → Tensor × γ)
    (shape : List Nat) (high low : Int) (extra_args : α) (g : γ) : Tensor × γ :=
  Func high low shape extra_args g

/-- `RandIntLowBatchRuleHelper::apply` (lines 130–137): routes a
`(high, low, shape, ...)` call through `rand_int_low_wrapper` into
`random_batching_rule`, with the two bounds carried as extra arguments. -/
def RandIntLowBatchRuleHelper.apply {α γ : Type} (Func : Int → Int → List Nat → α → γ → Tensor × γ)
    (high low : Int) (shape : List Nat) (extra_args : α) (w : World γ) :
    Except VmapError VTensor × World γ :=
  random_batching_rule (fun s p g => rand_int_low_wrapper Func s p.1 p.2.1 p.2.2 g)
    shape (high, (low, extra_args)) w

/-- `RandomBatchRuleHelper::apply` (lines 88–93): trivial forwarder for the
shape-first operators. -/
def RandomBatchRuleHelper.apply {α γ : Type} (Func : List Nat → α → γ → Tensor × γ)
    (shape : List Nat) (extra_args : α) (w : World γ) :
    Except VmapError VTensor × World γ :=
  random_batching_rule Func shape extra_args w

/-- `RandomInplaceBatchRuleHelper::apply` (lines 103–108): trivial forwarder
for the in-place operators. -/
def RandomInplaceBatchRuleHelper.apply {α γ : Type} (Func : Tensor → α → γ → Tensor × γ)
    (self : WrappedTensor) (extra_args : α) (w : World γ) :
    Except VmapError WrappedTensor × World γ :=
  random_inplace_batching_rule Func self extra_args w

/-- `RandpermBatchRuleHelper::apply` (lines 142–147): trivial forwarder for
`randperm`. -/
def RandpermBatchRuleHelper.apply {α γ : Type} (stackP : List Tensor → Tensor)
    (Func : Nat → α → γ → Tensor × γ) (n : Nat) (extra_args : α) (w : World γ) :
    Except VmapError VTensor × World γ :=
  randperm_batching_rule stackP Func n extra_args w

/-- A list of integers is a permutation of `[0, n)`. -/
def isPermOf (l : List Int) (n : Nat) : Prop :=
  l.Perm ((List.range n).map Int.ofNat)

/- Concrete instantiations used by the witnesses. -/

/-- A concrete shape-taking operator: fills with consecutive values starting
at the generator state, then advances the state. -/
def demoFunc (s : List Nat) (_ : Unit) (g : Nat) : Tensor × Nat :=
  (⟨s, (List.range (numel s)).map (fun i => Int.ofNat (g + i))⟩, g + 1)

/-- A concrete in-place operator: overwrites a tensor (shape preserved) with
consecutive values starting at the generator state, advancing the state. -/
def demoInplace (t : Tensor) (_ : Unit) (g : Nat) : Tensor × Nat :=
  (⟨t.shape, (List.range (numel t.shape)).map (fun i => Int.ofNat (g + i))⟩, g + 1)

/-- A concrete permutation operator: returns the reversed identity permutation
of `[0, n)` and advances the generator state. -/
def demoPerm (n : Nat) (_ : Unit) (g : Nat) : Tensor × Nat :=
  (⟨[n], ((List.range n).map Int.ofNat).reverse⟩, g + 1)

/-- A concrete bound-first operator (`randint`-shaped): records the bound. -/
def demoIntFunc (high : Int) (s : List Nat) (_ : Unit) (g : Nat) : Tensor × Nat :=
  (⟨s, (List.range (numel s)).map (fun _ => high)⟩, g + 1)

/-- A concrete two-bounds-first operator (`randint.low`-shaped): records both
bounds. -/
def demoIntLowFunc (b1 b2 : Int) (s : List Nat) (_ : Unit) (g : Nat) : Tensor × Nat :=
  (⟨s, (List.range (numel s)).map (fun i => if i % 2 = 0 then b1 else b2)⟩, g + 1)

theorem numel_cons (a : Nat) (l : List Nat) : numel (a :: l) = a * numel l := rfl

/-- Round trip of the row-major index maps: flattening the multi-index of a
valid flat offset gives the offset back. -/
theorem flattenIdx_unflattenIdx :
    ∀ (shape : List Nat) (j : Nat), j < numel shape →
      flattenIdx shape (unflattenIdx shape j) = j
  | [], j, h => by
    have hj : j = 0 := Nat.lt_one_iff.mp h
    subst hj
    rfl
  | a :: rest, j, h => by
    have hn : 0 < numel rest := by
      rcases Nat.eq_zero_or_pos (numel rest) with h0 | h0
      · rw [numel_cons, h0, Nat.mul_zero] at h
        exact absurd h (Nat.not_lt_zero j)
      · exact h0
    have ih := flattenIdx_unflattenIdx rest (j % numel rest) (Nat.mod_lt _ hn)
    show j / numel rest * numel rest + flattenIdx rest (unflattenIdx rest (j % numel rest)) = j
    rw [ih, Nat.mul_comm]
    exact Nat.div_add_mod j (numel rest)

/-- Broadcast copy into a tensor batched at dimension 0: every slice along
dimension 0 equals the source's contents. -/
theorem slice0_broadcastCopy (B : Nat) (rest : List Nat) (dest src : Tensor)
    (hdest : dest.shape = B :: rest) (hsrc : src.shape = rest)
    (hlen : src.data.length = numel rest) (i : Nat) (hi : i < B) :
    slice0 (broadcastCopy dest 0 src) i = src.data := by
  rcases dest with ⟨ds, dd⟩
  rcases src with ⟨ss, sd⟩
  have hds : ds = B :: rest := hdest
  subst hds
  have hss : ss = rest := hsrc
  rw [hss]
  have hlen' : sd.length = numel rest := hlen
  have hmul : (i + 1) * numel rest ≤ B * numel rest :=
    Nat.mul_le_mul_right _ hi
  have hd : (i + 1) * numel rest = i * numel rest + numel rest :=
    Nat.succ_mul i (numel rest)
  apply List.ext_getElem
  · simp only [slice0, broadcastCopy, List.length_take, List.length_drop,
      List.length_map, List.length_range, numel_cons, List.tail_cons]
    omega
  · intro j h1 h2
    have h2' : j < sd.length := h2
    have hj : j < numel rest := by omega
    simp only [slice0, broadcastCopy, List.tail_cons]
    rw [List.getElem_take, List.getElem_drop, List.getElem_map, List.getElem_range]
    show sd.getD (flattenIdx rest ((unflattenIdx (B :: rest) (i * numel rest + j)).eraseIdx 0)) 0
      = sd[j]
    have hmod : (i * numel rest + j) % numel rest = j := by
      rw [Nat.mul_comm, Nat.mul_add_mod]
      exact Nat.mod_eq_of_lt hj
    show sd.getD (flattenIdx rest (unflattenIdx rest ((i * numel rest + j) % numel rest))) 0
      = sd[j]
    rw [hmod, flattenIdx_unflattenIdx rest j hj]
    rw [List.getD_eq_getElem?_getD, List.getElem?_eq_getElem h2', Option.getD_some]

/-- Dropping `i` blocks of length `n` from a flattened list of `n`-length
blocks and taking `n` recovers the `i`-th block. -/
theorem flatten_drop_take {n : Nat} :
    ∀ (ls : List (List Int)) (i : Nat), (∀ l ∈ ls, l.length = n) →
      ∀ hi : i < ls.length, (ls.flatten.drop (i * n)).take n = ls.get ⟨i, hi⟩
  | [], i, _, hi => absurd hi (Nat.not_lt_zero i)
  | l :: ls, 0, h, _ => by
    rw [Nat.zero_mul, List.drop_zero]
    show (l ++ ls.flatten).take n = l
    exact List.take_left' (h l (List.mem_cons_self l ls))
  | l :: ls, i + 1, h, hi => by
    show ((l ++ ls.flatten).drop ((i + 1) * n)).take n = (l :: ls).get ⟨i + 1, hi⟩
    have h1 : (i + 1) * n = n + i * n := by
      rw [Nat.succ_mul, Nat.add_comm]
    rw [h1, ← List.drop_drop, List.drop_left' (h l (List.mem_cons_self l ls))]
    exact flatten_drop_take ls i (fun l' hl' => h l' (List.mem_cons_of_mem _ hl'))
      (Nat.lt_of_succ_lt_succ hi)

/-- Slices along dimension 0 of a stacked list of `[n]`-shaped tensors are the
stacked tensors' contents. -/
theorem slice0_stack (ts : List Tensor) (n : Nat)
    (hlen : ∀ t ∈ ts, t.data.length = n)
    (hhead : (ts.headD ⟨[], []⟩).shape = [n])
    (i : Nat) (hi : i < ts.length) :
    slice0 (stack ts) i = (ts.get ⟨i, hi⟩).data := by
  have hn : numel (stack ts).shape.tail = n := by
    show numel (ts.headD ⟨[], []⟩).shape = n
    rw [hhead]
    show n * 1 = n
    exact Nat.mul_one n
  show ((ts.map Tensor.data).flatten.drop (i * numel (stack ts).shape.tail)).take
      (numel (stack ts).shape.tail) = (ts.get ⟨i, hi⟩).data
  rw [hn]
  have hlens : ∀ l ∈ ts.map Tensor.data, l.length = n := by
    intro l hl
    rcases List.mem_map.mp hl with ⟨t, ht, rfl⟩
    exact hlen t ht
  have hi' : i < (ts.map Tensor.data).length := by
    rw [List.length_map]
    exact hi
  rw [flatten_drop_take (ts.map Tensor.data) i hlens hi']
  rw [List.get_eq_getElem, List.get_eq_getElem, List.getElem_map]

/-- The `randperm` loop performs exactly `k` collections. -/
theorem randpermLoop_length {α γ : Type} (Func : Nat → α → γ → Tensor × γ)
    (n : Nat) (e : α) : ∀ (k : Nat) (g : γ), (randpermLoop Func n e k g).1.length = k
  | 0, _ => rfl
  | k + 1, g => by
    show ((Func n e g).1 :: (randpermLoop Func n e k (Func n e g).2).1).length = k + 1
    rw [List.length_cons, randpermLoop_length Func n e k (Func n e g).2]

/-- The `randperm` loop threads the generator state sequentially: after `k`
calls the state is the `k`-fold advance of the initial state. -/
theorem randpermLoop_gen {α γ : Type} (Func : Nat → α → γ → Tensor × γ)
    (n : Nat) (e : α) : ∀ (k : Nat) (g : γ),
      (randpermLoop Func n e k g).2 = (fun g' => (Func n e g').2)^[k] g
  | 0, _ => rfl
  | k + 1, g => by
    show (randpermLoop Func n e k (Func n e g).2).2 = (fun g' => (Func n e g').2)^[k + 1] g
    rw [randpermLoop_gen Func n e k (Func n e g).2, Function.iterate_succ_apply]

/-- The `i`-th tensor the `randperm` loop collects is the real operator's
output at the generator state advanced by the `i` previous calls. -/
theorem randpermLoop_getElem? {α γ : Type} (Func : Nat → α → γ → Tensor × γ)
    (n : Nat) (e : α) : ∀ (k i : Nat) (g : γ), i < k →
      (randpermLoop Func n e k g).1[i]? =
        some (Func n e ((fun g' => (Func n e g').2)^[i] g)).1
  | 0, i, _, h => absurd h (Nat.not_lt_zero i)
  | k + 1, 0, g, _ => by
    show ((Func n e g).1 :: (randpermLoop Func n e k (Func n e g).2).1)[0]? = _
    rw [List.getElem?_cons_zero]
    rfl
  | k + 1, i + 1, g, h => by
    show ((Func n e g).1 :: (randpermLoop Func n e k (Func n e g).2).1)[i + 1]? = _
    rw [List.getElem?_cons_succ,
      randpermLoop_getElem? Func n e k i (Func n e g).2 (Nat.lt_of_succ_lt_succ h),
      Function.iterate_succ_apply]

/-- C1: for every shape-taking random operator and every requested shape `S`,
under mode `Different` the rule invokes the real operator with shape
`[batchSize] ++ S` (order preserved) and the unchanged extra arguments, and
returns the result wrapped as a Batched Result at batch-dimension 0 tagged
with the active layer's identifier. -/
theorem random_batching_rule_different {α γ : Type}
    (Func : List Nat → α → γ → Tensor × γ) (shape : List Nat) (extra_args : α)
    (w : World γ) (h : w.layer.randomness = RandomnessType.Different) :
    random_batching_rule Func shape extra_args w =
      (Except.ok (makeBatched (Func (w.layer.batchSize :: shape) extra_args w.gen).1
          0 w.layer.layerId),
        ⟨w.layer, (Func (w.layer.batchSize :: shape) extra_args w.gen).2⟩) := by
  rcases w with ⟨⟨B, lid, r⟩, g⟩
  have h' : r = RandomnessType.Different := h
  subst h'
  rfl

/-- Witness for C1 at a concrete input: batch size 3, layer 7, shape `[4, 4]`. -/
theorem random_batching_rule_different_witness :
    random_batching_rule demoFunc [4, 4] () ⟨⟨3, 7, RandomnessType.Different⟩, 0⟩ =
      (Except.ok (makeBatched (demoFunc [3, 4, 4] () 0).1 0 7),
        ⟨⟨3, 7, RandomnessType.Different⟩, (demoFunc [3, 4, 4] () 0).2⟩) :=
  random_batching_rule_different demoFunc [4, 4] ()
    ⟨⟨3, 7, RandomnessType.Different⟩, 0⟩ rfl

/-- C2: in mode `Error` every intercepted rule aborts with the randomness-mode
error before invoking the real operator — for arbitrary wrapped operators the
result is the error and the world (generator state included) is untouched —
and in modes `Same` and `Different` the check `check_randomness` has no
effect. -/
theorem error_mode_aborts {α β γ : Type}
    (Func1 : List Nat → α → γ → Tensor × γ) (shape : List Nat) (e1 : α)
    (Func2 : Tensor → β → γ → Tensor × γ) (self : WrappedTensor) (e2 : β)
    (stackP : List Tensor → Tensor) (Func3 : Nat → α → γ → Tensor × γ)
    (n : Nat) (e3 : α) (w : World γ)
    (h : w.layer.randomness = RandomnessType.Error) :
    random_batching_rule Func1 shape e1 w =
        (Except.error VmapError.RandomnessModeError, w) ∧
    random_inplace_batching_rule Func2 self e2 w =
        (Except.error VmapError.RandomnessModeError, w) ∧
    randperm_batching_rule stackP Func3 n e3 w =
        (Except.error VmapError.RandomnessModeError, w) ∧
    ∀ m : RandomnessType, m ≠ RandomnessType.Error →
      check_randomness m = Except.ok () := by
  rcases w with ⟨⟨B, lid, r⟩, g⟩
  have h' : r = RandomnessType.Error := h
  subst h'
  refine ⟨rfl, rfl, rfl, ?_⟩
  intro m hm
  cases m
  · exact absurd rfl hm
  · rfl
  · rfl

/-- Witness for C2 at a concrete input: an `Error`-mode layer, plus the
no-effect facts for `Same` and `Different`. -/
theorem error_mode_aborts_witness :
    random_batching_rule demoFunc [2] () ⟨⟨3, 7, RandomnessType.Error⟩, 5⟩ =
        (Except.error VmapError.RandomnessModeError, ⟨⟨3, 7, RandomnessType.Error⟩, 5⟩) ∧
    random_inplace_batching_rule demoInplace ⟨⟨[2], [0, 0]⟩, none⟩ ()
        ⟨⟨3, 7, RandomnessType.Error⟩, 5⟩ =
        (Except.error VmapError.RandomnessModeError, ⟨⟨3, 7, RandomnessType.Error⟩, 5⟩) ∧
    randperm_batching_rule stack demoPerm 3 () ⟨⟨3, 7, RandomnessType.Error⟩, 5⟩ =
        (Except.error VmapError.RandomnessModeError, ⟨⟨3, 7, RandomnessType.Error⟩, 5⟩) ∧
    check_randomness RandomnessType.Same = Except.ok () ∧
    check_randomness RandomnessType.Different = Except.ok () :=
  have h := error_mode_aborts demoFunc [2] () demoInplace ⟨⟨[2], [0, 0]⟩, none⟩ ()
    stack demoPerm 3 () ⟨⟨3, 7, RandomnessType.Error⟩, 5⟩ rfl
  ⟨h.1, h.2.1, h.2.2.1, h.2.2.2 _ (by decide), h.2.2.2 _ (by decide)⟩

/-- C4: for the in-place rule, mode `Different` with an unbatched target aborts
with the unsupported-in-place-randomness error before any real operator runs
and before any scratch allocation (the result is the error for an arbitrary
wrapped operator, and the world — generator state included — and the target
are untouched). -/
theorem random_inplace_different_unbatched {α γ : Type}
    (Func : Tensor → α → γ → Tensor × γ) (self : WrappedTensor) (extra_args : α)
    (w : World γ) (hmode : w.layer.randomness = RandomnessType.Different)
    (hbdim : self.bdim = none) :
    random_inplace_batching_rule Func self extra_args w =
      (Except.error VmapError.UnsupportedInplaceRandomnessError, w) := by
  rcases w with ⟨⟨B, lid, r⟩, g⟩
  rcases self with ⟨v, b⟩
  have h1 : r = RandomnessType.Different := hmode
  have h2 : b = none := hbdim
  subst h1
  subst h2
  rfl

/-- Witness for C4 at a concrete input: a `Different`-mode layer and an
unbatched target of shape `[2]`. -/
theorem random_inplace_different_unbatched_witness :
    random_inplace_batching_rule demoInplace ⟨⟨[2], [0, 0]⟩, none⟩ ()
        ⟨⟨3, 7, RandomnessType.Different⟩, 5⟩ =
      (Except.error VmapError.UnsupportedInplaceRandomnessError,
        ⟨⟨3, 7, RandomnessType.Different⟩, 5⟩) :=
  random_inplace_different_unbatched demoInplace ⟨⟨[2], [0, 0]⟩, none⟩ ()
    ⟨⟨3, 7, RandomnessType.Different⟩, 5⟩ rfl rfl

/-- C6: for every shape-taking random operator and every requested shape `S`,
under mode `Same` the rule invokes the real operator exactly once with the
original unmodified shape `S` and unchanged extra arguments, and returns the
plain result untagged. -/
theorem random_batching_rule_same {α γ : Type}
    (Func : List Nat → α → γ → Tensor × γ) (shape : List Nat) (extra_args : α)
    (w : World γ) (h : w.layer.randomness = RandomnessType.Same) :
    random_batching_rule Func shape extra_args w =
      (Except.ok (VTensor.plain (Func shape extra_args w.gen).1),
        ⟨w.layer, (Func shape extra_args w.gen).2⟩) := by
  rcases w with ⟨⟨B, lid, r⟩, g⟩
  have h' : r = RandomnessType.Same := h
  subst h'
  rfl

/-- Witness for C6 at a concrete input: batch size 3, mode `Same`, shape `[4, 4]`. -/
theorem random_batching_rule_same_witness :
    random_batching_rule demoFunc [4, 4] () ⟨⟨3, 7, RandomnessType.Same⟩, 0⟩ =
      (Except.ok (VTensor.plain (demoFunc [4, 4] () 0).1),
        ⟨⟨3, 7, RandomnessType.Same⟩, (demoFunc [4, 4] () 0).2⟩) :=
  random_batching_rule_same demoFunc [4, 4] () ⟨⟨3, 7, RandomnessType.Same⟩, 0⟩ rfl

/-- C7: for the in-place rule in the two remaining cases (`Same` with an
unbatched target, `Different` with a batched target) the real in-place
operator runs exactly once directly on the unwrapped target value with any
existing batch dimension moved to the front, and the (mutated) original
handle — same batch annotation — is returned. -/
theorem random_inplace_passthrough {α γ : Type}
    (Func : Tensor → α → γ → Tensor × γ) (self : WrappedTensor) (extra_args : α)
    (w : World γ)
    (h : (w.layer.randomness = RandomnessType.Same ∧ self.bdim = none) ∨
         (w.layer.randomness = RandomnessType.Different ∧ self.bdim ≠ none)) :
    random_inplace_batching_rule Func self extra_args w =
      (Except.ok ⟨moveBatchDimFromFront
          (Func (moveBatchDimToFront self.value self.bdim) extra_args w.gen).1 self.bdim,
          self.bdim⟩,
        ⟨w.layer, (Func (moveBatchDimToFront self.value self.bdim) extra_args w.gen).2⟩) := by
  rcases w with ⟨⟨B, lid, r⟩, g⟩
  rcases self with ⟨v, b⟩
  rcases h with ⟨h1, h2⟩ | ⟨h1, h2⟩
  · have h1' : r = RandomnessType.Same := h1
    have h2' : b = none := h2
    subst h1'
    subst h2'
    rfl
  · have h1' : r = RandomnessType.Different := h1
    subst h1'
    rcases b with _ | d
    · exact absurd rfl h2
    · rfl

/-- Witness for C7 at a concrete input: mode `Different` with a target batched
at dimension 0. -/
theorem random_inplace_passthrough_witness :
    random_inplace_batching_rule demoInplace ⟨⟨[2, 3], [0, 0, 0, 0, 0, 0]⟩, some 0⟩ ()
        ⟨⟨2, 7, RandomnessType.Different⟩, 5⟩ =
      (Except.ok ⟨moveBatchDimFromFront
          (demoInplace (moveBatchDimToFront ⟨[2, 3], [0, 0, 0, 0, 0, 0]⟩ (some 0)) () 5).1
          (some 0), some 0⟩,
        ⟨⟨2, 7, RandomnessType.Different⟩,
          (demoInplace (moveBatchDimToFront ⟨[2, 3], [0, 0, 0, 0, 0, 0]⟩ (some 0)) () 5).2⟩) :=
  random_inplace_passthrough demoInplace ⟨⟨[2, 3], [0, 0, 0, 0, 0, 0]⟩, some 0⟩ ()
    ⟨⟨2, 7, RandomnessType.Different⟩, 5⟩ (Or.inr ⟨rfl, by decide⟩)

/-- C9: every rule only reads the active layer: on every input (hence every
mode and every exit path, error or normal) the layer in the resulting world
is the layer that was there before the call — no rule creates, mutates or
destroys it. -/
theorem rules_read_only_layer {α β γ : Type}
    (Func1 : List Nat → α → γ → Tensor × γ) (shape : List Nat) (e1 : α)
    (Func2 : Tensor → β → γ → Tensor × γ) (self : WrappedTensor) (e2 : β)
    (stackP : List Tensor → Tensor) (Func3 : Nat → α → γ → Tensor × γ)
    (n : Nat) (e3 : α) (w : World γ) :
    (random_batching_rule Func1 shape e1 w).2.layer = w.layer ∧
    (random_inplace_batching_rule Func2 self e2 w).2.layer = w.layer ∧
    (randperm_batching_rule stackP Func3 n e3 w).2.layer = w.layer := by
  rcases w with ⟨⟨B, lid, r⟩, g⟩
  rcases self with ⟨v, b⟩
  rcases b with _ | d <;> cases r <;> exact ⟨rfl, rfl, rfl⟩

/-- C10: `randperm` under mode `Different` with batch size 0 performs zero
calls to the real operator (the generator state is untouched and the result
does not depend on `Func`) and hands the empty list straight to the external
stack primitive — for an arbitrary stack primitive `stackP` the result is
exactly `stackP []` wrapped as batched, so there is no path avoiding the
stack primitive. -/
theorem randperm_batching_rule_empty_batch {α γ : Type}
    (stackP : List Tensor → Tensor) (Func : Nat → α → γ → Tensor × γ)
    (n : Nat) (extra_args : α) (w : World γ)
    (hB : w.layer.batchSize = 0)
    (hmode : w.layer.randomness = RandomnessType.Different) :
    randperm_batching_rule stackP Func n extra_args w =
      (Except.ok (makeBatched (stackP []) 0 w.layer.layerId), w) := by
  rcases w with ⟨⟨B, lid, r⟩, g⟩
  have h1 : B = 0 := hB
  have h2 : r = RandomnessType.Different := hmode
  subst h1
  subst h2
  rfl

/-- Witness for C10 at a concrete input: batch size 0, mode `Different`,
`n = 5`, with the concrete stack primitive. -/
theorem randperm_batching_rule_empty_batch_witness :
    randperm_batching_rule stack demoPerm 5 () ⟨⟨0, 7, RandomnessType.Different⟩, 4⟩ =
      (Except.ok (makeBatched (stack []) 0 7), ⟨⟨0, 7, RandomnessType.Different⟩, 4⟩) :=
  randperm_batching_rule_empty_batch stack demoPerm 5 ()
    ⟨⟨0, 7, RandomnessType.Different⟩, 4⟩ rfl rfl

/-- C3: for the in-place rule under mode `Same` with a target batched at the
current layer (batch dimension 0, physical shape `[batchSize] ++ rest`), the
rule draws exactly once into a fresh scratch tensor of the target's unbatched
logical shape and broadcast-copies it into the target, after which every one
of the `batchSize` slices of the target along dimension 0 is bit-identical
(each equals the scratch draw); the handle returned carries the original
batch annotation. -/
theorem random_inplace_same_batched {α γ : Type}
    (Func : Tensor → α → γ → Tensor × γ) (self : WrappedTensor) (extra_args : α)
    (w : World γ) (rest : List Nat)
    (hmode : w.layer.randomness = RandomnessType.Same)
    (hbdim : self.bdim = some 0)
    (hshape : self.value.shape = w.layer.batchSize :: rest)
    (hfshape : (Func (empty rest) extra_args w.gen).1.shape = rest)
    (hflen : (Func (empty rest) extra_args w.gen).1.data.length = numel rest) :
    random_inplace_batching_rule Func self extra_args w =
      (Except.ok ⟨broadcastCopy self.value 0 (Func (empty rest) extra_args w.gen).1,
          self.bdim⟩,
        ⟨w.layer, (Func (empty rest) extra_args w.gen).2⟩) ∧
    ∀ i, i < w.layer.batchSize →
      slice0 (broadcastCopy self.value 0 (Func (empty rest) extra_args w.gen).1) i =
        (Func (empty rest) extra_args w.gen).1.data := by
  constructor
  · rcases w with ⟨⟨B, lid, r⟩, g⟩
    rcases self with ⟨v, b⟩
    have h1 : r = RandomnessType.Same := hmode
    have h2 : b = some 0 := hbdim
    subst h1
    subst h2
    have hlog : logicalShape ⟨v, some 0⟩ = rest := by
      show v.shape.eraseIdx 0 = rest
      rw [show v.shape = B :: rest from hshape]
      rfl
    show ((Except.ok ⟨broadcastCopy v 0
        (Func (empty (logicalShape ⟨v, some 0⟩)) extra_args g).1, some 0⟩ :
          Except VmapError WrappedTensor),
      (⟨⟨B, lid, RandomnessType.Same⟩,
        (Func (empty (logicalShape ⟨v, some 0⟩)) extra_args g).2⟩ : World γ)) = _
    rw [hlog]
  · intro i hi
    exact slice0_broadcastCopy w.layer.batchSize rest self.value
      (Func (empty rest) extra_args w.gen).1 hshape hfshape hflen i hi

/-- Witness for C3 at a concrete input: batch size 2, mode `Same`, a target of
physical shape `[2, 3]` batched at dimension 0; both slices along dimension 0
equal the single scratch draw. -/
theorem random_inplace_same_batched_witness :
    random_inplace_batching_rule demoInplace ⟨⟨[2, 3], [9, 9, 9, 9, 9, 9]⟩, some 0⟩ ()
        ⟨⟨2, 7, RandomnessType.Same⟩, 5⟩ =
      (Except.ok ⟨broadcastCopy ⟨[2, 3], [9, 9, 9, 9, 9, 9]⟩ 0
          (demoInplace (empty [3]) () 5).1, some 0⟩,
        ⟨⟨2, 7, RandomnessType.Same⟩, (demoInplace (empty [3]) () 5).2⟩) ∧
    slice0 (broadcastCopy ⟨[2, 3], [9, 9, 9, 9, 9, 9]⟩ 0 (demoInplace (empty [3]) () 5).1) 0 =
      (demoInplace (empty [3]) () 5).1.data ∧
    slice0 (broadcastCopy ⟨[2, 3], [9, 9, 9, 9, 9, 9]⟩ 0 (demoInplace (empty [3]) () 5).1) 1 =
      (demoInplace (empty [3]) () 5).1.data :=
  have h := random_inplace_same_batched demoInplace ⟨⟨[2, 3], [9, 9, 9, 9, 9, 9]⟩, some 0⟩ ()
    ⟨⟨2, 7, RandomnessType.Same⟩, 5⟩ [3] rfl rfl rfl rfl (by decide)
  ⟨h.1, h.2 0 (by decide), h.2 1 (by decide)⟩

/-- C5: `randperm(n)` under mode `Different` with batch size `B > 0` invokes
the real operator exactly `B` times, sequentially in index order `0..B-1`
(the `i`-th collected tensor is the operator's output at the generator state
advanced by the `i` previous calls, and the final state is the `B`-fold
advance), stacks the `B` results along a new leading dimension and wraps the
stack as batched at dimension 0; the stack has shape `[B, n]` and each of its
rows is a permutation of `[0, n)` whenever the real operator produces
permutations. -/
theorem randperm_batching_rule_different {α γ : Type}
    (Func : Nat → α → γ → Tensor × γ) (n : Nat) (extra_args : α) (w : World γ)
    (hmode : w.layer.randomness = RandomnessType.Different)
    (hB : 0 < w.layer.batchSize)
    (hFunc : ∀ g : γ, (Func n extra_args g).1.shape = [n] ∧
        isPermOf (Func n extra_args g).1.data n) :
    randperm_batching_rule stack Func n extra_args w =
      (Except.ok (makeBatched
          (stack (randpermLoop Func n extra_args w.layer.batchSize w.gen).1)
          0 w.layer.layerId),
        ⟨w.layer, (fun g' => (Func n extra_args g').2)^[w.layer.batchSize] w.gen⟩) ∧
    (randpermLoop Func n extra_args w.layer.batchSize w.gen).1.length
        = w.layer.batchSize ∧
    (∀ i, i < w.layer.batchSize →
      (randpermLoop Func n extra_args w.layer.batchSize w.gen).1[i]? =
        some (Func n extra_args ((fun g' => (Func n extra_args g').2)^[i] w.gen)).1) ∧
    (stack (randpermLoop Func n extra_args w.layer.batchSize w.gen).1).shape
        = [w.layer.batchSize, n] ∧
    (∀ i, i < w.layer.batchSize →
      isPermOf (slice0 (stack (randpermLoop Func n extra_args w.layer.batchSize w.gen).1) i)
        n) := by
  have hlens : ∀ t ∈ (randpermLoop Func n extra_args w.layer.batchSize w.gen).1,
      t.data.length = n := by
    intro t ht
    rcases List.mem_iff_get.mp ht with ⟨⟨j, hj⟩, hget⟩
    have hj' : j < w.layer.batchSize := by
      rw [randpermLoop_length Func n extra_args w.layer.batchSize w.gen] at hj
      exact hj
    have hq := randpermLoop_getElem? Func n extra_args w.layer.batchSize j w.gen hj'
    rw [List.getElem?_eq_getElem hj] at hq
    have ht' : t = (Func n extra_args
        ((fun g' => (Func n extra_args g').2)^[j] w.gen)).1 := by
      rw [← hget]
      rw [List.get_eq_getElem]
      exact Option.some.inj hq
    rw [ht']
    have := (hFunc ((fun g' => (Func n extra_args g').2)^[j] w.gen)).2
    rw [List.Perm.length_eq this, List.length_map, List.length_range]
  have hhead : ((randpermLoop Func n extra_args w.layer.batchSize w.gen).1.headD
      ⟨[], []⟩).shape = [n] := by
    obtain ⟨k, hk⟩ : ∃ k, w.layer.batchSize = k + 1 :=
      ⟨w.layer.batchSize - 1, by omega⟩
    rw [hk]
    show (Func n extra_args w.gen).1.shape = [n]
    exact (hFunc w.gen).1
  refine ⟨?_, randpermLoop_length Func n extra_args w.layer.batchSize w.gen,
    fun i hi => randpermLoop_getElem? Func n extra_args w.layer.batchSize i w.gen hi,
    ?_, ?_⟩
  · rcases w with ⟨⟨B, lid, r⟩, g⟩
    have h' : r = RandomnessType.Different := hmode
    subst h'
    show (Except.ok (makeBatched (stack (randpermLoop Func n extra_args B g).1) 0 lid),
      (⟨⟨B, lid, RandomnessType.Different⟩,
        (randpermLoop Func n extra_args B g).2⟩ : World γ)) = _
    rw [randpermLoop_gen]
  · show ((randpermLoop Func n extra_args w.layer.batchSize w.gen).1.length ::
      ((randpermLoop Func n extra_args w.layer.batchSize w.gen).1.headD ⟨[], []⟩).shape)
        = [w.layer.batchSize, n]
    rw [randpermLoop_length, hhead]
  · intro i hi
    have hi' : i < (randpermLoop Func n extra_args w.layer.batchSize w.gen).1.length := by
      rw [randpermLoop_length]
      exact hi
    rw [slice0_stack (randpermLoop Func n extra_args w.layer.batchSize w.gen).1 n
      hlens hhead i hi']
    have hq := randpermLoop_getElem? Func n extra_args w.layer.batchSize i w.gen hi
    rw [List.getElem?_eq_getElem hi'] at hq
    rw [List.get_eq_getElem, Option.some.inj hq]
    exact (hFunc ((fun g' => (Func n extra_args g').2)^[i] w.gen)).2

/-- Witness for C5 at a concrete input: `randperm(3)` with batch size 2 in mode
`Different`, using a concrete permutation-producing operator: the stack has
shape `[2, 3]` and both rows are permutations of `[0, 3)`. -/
theorem randperm_batching_rule_different_witness :
    randperm_batching_rule stack demoPerm 3 () ⟨⟨2, 7, RandomnessType.Different⟩, 0⟩ =
      (Except.ok (makeBatched (stack (randpermLoop demoPerm 3 () 2 0).1) 0 7),
        ⟨⟨2, 7, RandomnessType.Different⟩, (fun g' => (demoPerm 3 () g').2)^[2] 0⟩) ∧
    (stack (randpermLoop demoPerm 3 () 2 0).1).shape = [2, 3] ∧
    isPermOf (slice0 (stack (randpermLoop demoPerm 3 () 2 0).1) 0) 3 ∧
    isPermOf (slice0 (stack (randpermLoop demoPerm 3 () 2 0).1) 1) 3 :=
  have h := randperm_batching_rule_different demoPerm 3 ()
    ⟨⟨2, 7, RandomnessType.Different⟩, 0⟩ rfl (by decide)
    (fun _ => ⟨rfl,
      show (((List.range 3).map Int.ofNat).reverse).Perm ((List.range 3).map Int.ofNat)
        by decide⟩)
  ⟨h.1, h.2.2.2.1, h.2.2.2.2 0 (by decide), h.2.2.2.2 1 (by decide)⟩

/-- C8: the bounded-integer argument adapters are pure argument-forwarding:
routing a `randint`-style call (one bound) or a `randint.low`-style call (two
bounds) through its adapter and the uniform shape rule invokes the underlying
operator with exactly the caller's bound values in the operator's native
positional order — bounds first, then the (possibly batch-expanded) shape —
with no bound swapped, dropped or altered, in mode `Different` (world `w`)
and in mode `Same` (world `u`). -/
theorem rand_int_adapters_forward {α γ : Type}
    (Func1 : Int → List Nat → α → γ → Tensor × γ)
    (Func2 : Int → Int → List Nat → α → γ → Tensor × γ)
    (high low : Int) (shape : List Nat) (extra_args : α)
    (w u : World γ)
    (hD : w.layer.randomness = RandomnessType.Different)
    (hS : u.layer.randomness = RandomnessType.Same) :
    RandIntBatchRuleHelper.apply Func1 high shape extra_args w =
      (Except.ok (makeBatched
          (Func1 high (w.layer.batchSize :: shape) extra_args w.gen).1
          0 w.layer.layerId),
        ⟨w.layer, (Func1 high (w.layer.batchSize :: shape) extra_args w.gen).2⟩) ∧
    RandIntLowBatchRuleHelper.apply Func2 high low shape extra_args w =
      (Except.ok (makeBatched
          (Func2 high low (w.layer.batchSize :: shape) extra_args w.gen).1
          0 w.layer.layerId),
        ⟨w.layer, (Func2 high low (w.layer.batchSize :: shape) extra_args w.gen).2⟩) ∧
    RandIntBatchRuleHelper.apply Func1 high shape extra_args u =
      (Except.ok (VTensor.plain (Func1 high shape extra_args u.gen).1),
        ⟨u.layer, (Func1 high shape extra_args u.gen).2⟩) ∧
    RandIntLowBatchRuleHelper.apply Func2 high low shape extra_args u =
      (Except.ok (VTensor.plain (Func2 high low shape extra_args u.gen).1),
        ⟨u.layer, (Func2 high low shape extra_args u.gen).2⟩) := by
  rcases w with ⟨⟨B, lid, r⟩, g⟩
  rcases u with ⟨⟨B2, lid2, r2⟩, g2⟩
  have h1 : r = RandomnessType.Different := hD
  have h2 : r2 = RandomnessType.Same := hS
  subst h1
  subst h2
  exact ⟨rfl, rfl, rfl, rfl⟩

/-- Witness for C8 at a concrete input: bounds 11 and (-4), shape `[5]`, batch
size 3 in mode `Different` and batch size 2 in mode `Same`. -/
theorem rand_int_adapters_forward_witness :
    RandIntBatchRuleHelper.apply demoIntFunc 11 [5] () ⟨⟨3, 7, RandomnessType.Different⟩, 0⟩ =
      (Except.ok (makeBatched (demoIntFunc 11 [3, 5] () 0).1 0 7),
        ⟨⟨3, 7, RandomnessType.Different⟩, (demoIntFunc 11 [3, 5] () 0).2⟩) ∧
    RandIntLowBatchRuleHelper.apply demoIntLowFunc 11 (-4) [5] ()
        ⟨⟨3, 7, RandomnessType.Different⟩, 0⟩ =
      (Except.ok (makeBatched (demoIntLowFunc 11 (-4) [3, 5] () 0).1 0 7),
        ⟨⟨3, 7, RandomnessType.Different⟩, (demoIntLowFunc 11 (-4) [3, 5] () 0).2⟩) ∧
    RandIntBatchRuleHelper.apply demoIntFunc 11 [5] () ⟨⟨2, 9, RandomnessType.Same⟩, 1⟩ =
      (Except.ok (VTensor.plain (demoIntFunc 11 [5] () 1).1),
        ⟨⟨2, 9, RandomnessType.Same⟩, (demoIntFunc 11 [5] () 1).2⟩) ∧
    RandIntLowBatchRuleHelper.apply demoIntLowFunc 11 (-4) [5] ()
        ⟨⟨2, 9, RandomnessType.Same⟩, 1⟩ =
      (Except.ok (VTensor.plain (demoIntLowFunc 11 (-4) [5] () 1).1),
        ⟨⟨2, 9, RandomnessType.Same⟩, (demoIntLowFunc 11 (-4) [5] () 1).2⟩) :=
  rand_int_adapters_forward demoIntFunc demoIntLowFunc 11 (-4) [5] ()
    ⟨⟨3, 7, RandomnessType.Different⟩, 0⟩ ⟨⟨2, 9, RandomnessType.Same⟩, 1⟩ rfl rfl

end Functorch
